import Mathlib

/-!
Verification development for the cogee COG-registration tool
(source: src/cogee/cogee.py).

The Python code is shallowly embedded: Python strings are modelled as
lists of code points (`Str`), pure string manipulation (`split`,
`lower`, `endswith`, substring membership, `os.path.basename`) is
re-implemented over that model, and the effectful registration
functions are modelled as pure functions of an explicit "remote
environment" describing what each external call returns or raises.
-/

/-- Python strings as lists of code points.  Python indexes and slices
strings by code point, so `List Char` is the faithful model. -/
abbrev Str : Type := List Char

/-- Coerce a Lean string literal into the model. -/
def str (s : String) : Str := s.toList

/-- Python `s.lower()` (per-code-point lowering, as used on ASCII
object names in the source). -/
def lowerStr (s : Str) : Str := s.map Char.toLower

/-- Fuel-driven worker for `pySplit`.  One unit of fuel is spent per
consumed character, so `fuel = s.length` never runs out. -/
def pySplitF (sep : Str) : Nat → Str → Str → List Str
  | _, [], cur => [cur.reverse]
  | 0, s, cur => [cur.reverse ++ s]
  | fuel + 1, c :: rest, cur =>
    if sep ≠ [] ∧ sep.isPrefixOf (c :: rest) then
      cur.reverse :: pySplitF sep fuel (rest.drop (sep.length - 1)) []
    else
      pySplitF sep fuel rest (c :: cur)

/-- Python `s.split(sep)` for a non-empty separator: splits at each
left-most non-overlapping occurrence of `sep`; always returns a
non-empty list (`"".split(sep) == [""]`). -/
def pySplit (s sep : Str) : List Str := pySplitF sep s.length s []

/-- Python `s.split("/")[-1]`; also `os.path.basename` for the
POSIX-style catalog asset ids handled by the source. -/
def lastSegment (s : Str) : Str := (pySplit s (str "/")).getLastD []

/-- Python `s.split(sep)[0]`. -/
def firstPart (s sep : Str) : Str := (pySplit s sep).headD []

/-- Source-listing reconciliation key
(cogee.py:740, `file.get("name").split("/")[-1].split(".tif")[0]`). -/
def gcsKey (name : Str) : Str := firstPart (lastSegment name) (str ".tif")

/-- Catalog reconciliation key
(cogee.py:736, `os.path.basename(asset["id"])`). -/
def catKey (id : Str) : Str := lastSegment id

/-- Asset base name used by the manifest submitter
(cogee.py:570, `asset_id.get('name').split('/')[-1].split('.')[0]`). -/
def manifestBaseName (name : Str) : Str := firstPart (lastSegment name) (str ".")

/-- One Cloud Storage object as surfaced by the listing client.  The
two timestamps are carried already `strftime`-formatted, since the
formatting itself is vendor-library presentation. -/
structure Blob where
  name : Str
  time_created : Str
  updated : Str
  size : Nat
deriving DecidableEq

/-- One entry of the dictionary list built by `list_tif`
(cogee.py:248-253). -/
structure TifProps where
  name : Str
  time_created : Str
  time_updated : Str
  file_size_bytes : Nat
deriving DecidableEq, Inhabited

/-- Python `blob.name.lower().endswith(".tif")` (cogee.py:247). -/
def endsWithTifLower (s : Str) : Bool := (str ".tif").isSuffixOf (lowerStr s)

/-- The accumulation loop of `list_tif` (cogee.py:246-257): filter by
suffix, record the four properties, and break once the accumulated
count reaches the limit (the length test runs after the append). -/
def list_tif_loop (limit : Option Nat) : List Blob → List TifProps → List TifProps
  | [], acc => acc
  | b :: rest, acc =>
    if endsWithTifLower b.name then
      let acc2 := acc ++ [(⟨b.name, b.time_created, b.updated, b.size⟩ : TifProps)]
      match limit with
      | some l => if l ≤ acc2.length then acc2 else list_tif_loop (some l) rest acc2
      | none => list_tif_loop none rest acc2
    else list_tif_loop limit rest acc

/-- `list_tif` (cogee.py:221-259): when a limit `l` is given the
storage client is asked for at most `fetch_limit = 10 * l` objects
(cogee.py:235), so only that prefix of the store's stream is ever
examined. -/
def list_tif (blobs : List Blob) (limit : Option Nat) : List TifProps :=
  match limit with
  | some l => list_tif_loop (some l) (blobs.take (10 * l)) []
  | none => list_tif_loop none blobs []

/-- Python `target_name.lower() in item["name"].lower()`
(cogee.py:552): case-insensitive substring membership. -/
def containsLower (hay needle : Str) : Bool := decide (lowerStr needle <:+: lowerStr hay)

/-- `get_property` (cogee.py:549-554).  Every dictionary produced by
`list_tif` has a `"name"` key, so the `"name" in item` guard of the
source is always true here. -/
def get_property (data_list : List TifProps) (target_name : Str) : List TifProps :=
  data_list.filter (fun item => containsLower item.name target_name)

/-- Python `get_property(ptif, object_name)[0]` (cogee.py:748), as the
head of the filtered list. -/
def selectAsset (ptif : List TifProps) (key : Str) : Option TifProps :=
  (get_property ptif key).head?

/-- Base-name keys of the GCS listing (cogee.py:740). -/
def sourceKeys (ptif : List TifProps) : List Str := ptif.map (fun f => gcsKey f.name)

/-- Trailing-segment keys of the catalog listing (cogee.py:736). -/
def catalogKeys (ids : List Str) : List Str := ids.map catKey

/-- The Inventory Differ:
`set(gcs_asset_list) - set(gee_asset_list)` (cogee.py:741). -/
def remainingItems (ptif : List TifProps) (ids : List Str) : Finset Str :=
  (sourceKeys ptif).toFinset \ (catalogKeys ids).toFinset

/-- One iteration order of the Python set difference: first
occurrences of source keys, those present in the catalog removed. -/
def remainingList (ptif : List TifProps) (ids : List Str) : List Str :=
  ((sourceKeys ptif).dedup).filter (fun k => decide (k ∉ catalogKeys ids))

/-- One band descriptor of the manifest payload (cogee.py:594-606). -/
structure BandDescriptor where
  id : Str
  tilesetId : Str
  tilesetBandIndex : Nat
deriving DecidableEq

/-- Decimal rendering of a natural number, for the synthesized band
names `b1..bN`. -/
def natToStr (n : Nat) : Str := Nat.toDigits 10 n

/-- Default band naming (cogee.py:600-606): ids `b1..bN` (1-based),
tileset id `"0"`, 0-based tileset band index. -/
def defaultBands (band_count : Nat) : List BandDescriptor :=
  (List.range band_count).map (fun idx => ⟨str "b" ++ natToStr (idx + 1), str "0", idx⟩)

/-- Band construction (cogee.py:591-606): caller-supplied names are
used only when the list is truthy (non-empty) and its length equals
the detected band count; otherwise the synthesized defaults are used. -/
def buildBands (band_names : Option (List Str)) (band_count : Nat) : List BandDescriptor :=
  match band_names with
  | some names =>
    if names ≠ [] ∧ names.length = band_count then
      names.enum.map (fun p => ⟨p.2, str "0", p.1⟩)
    else defaultBands band_count
  | none => defaultBands band_count

/-- STAC metadata extracted by `validate_cog` as consumed by the
payload builder (only `gsd` and `proj:epsg` are read there). -/
structure StacMeta where
  gsd : Option Nat
  epsg : Option Nat
deriving DecidableEq, Inhabited

/-- Result of a `validate_cog` call that returned (did not raise):
`count` is the `properties['count']` entry, absent when the raster
could not be opened. -/
structure IntrospectOk where
  count : Option Nat
  stac : StacMeta
deriving DecidableEq, Inhabited

/-- Band count used by the payload builder (cogee.py:582-588):
`validation_result.get('properties', {}).get('count', 1)`, and `1`
when the introspection call raised. -/
def detectedBandCount (intro : Option IntrospectOk) : Nat :=
  match intro with
  | none => 1
  | some r => r.count.getD 1

/-- STAC metadata used by the payload builder; empty when the
introspection call raised (cogee.py:586-588). -/
def stacOf (intro : Option IntrospectOk) : StacMeta :=
  match intro with
  | none => ⟨none, none⟩
  | some r => r.stac

/-- Python truthiness filter on `stac_metadata.get('gsd')` /
`.get('proj:epsg')` (cogee.py:613-617): `None` and `0` are falsy. -/
def truthyOpt (o : Option Nat) : Option Nat :=
  match o with
  | some v => if v ≠ 0 then some v else none
  | none => none

/-- Target asset path of the manifest submitter (cogee.py:570-571). -/
def assetPath (collection name : Str) : Str :=
  collection ++ str "/" ++ manifestBaseName name

/-- Storage URI of the source object (cogee.py:576-579). -/
def gcsUri (bucket : Str) (pre : Option Str) (name : Str) : Str :=
  match pre with
  | none => str "gs://" ++ bucket ++ str "/" ++ name
  | some p => str "gs://" ++ bucket ++ str "/" ++ p ++ str "/" ++ name

/-- The manifest request body built by `register_single_asset_manifest`
(cogee.py:620-634), flattened to the fields the claims speak about. -/
structure Manifest where
  name : Str
  uris : List Str
  bands : List BandDescriptor
  file_size_bytes : Nat
  gsd : Option Nat
  epsg : Option Nat
  startTime : Str
  endTime : Str
deriving DecidableEq

/-- Payload construction of `register_single_asset_manifest`
(cogee.py:570-634). -/
def mkManifest (bucket : Str) (pre : Option Str) (collection : Str) (asset : TifProps)
    (intro : Option IntrospectOk) (band_names : Option (List Str)) : Manifest :=
  { name := assetPath collection asset.name
    uris := [gcsUri bucket pre asset.name]
    bands := buildBands band_names (detectedBandCount intro)
    file_size_bytes := asset.file_size_bytes
    gsd := truthyOpt (stacOf intro).gsd
    epsg := truthyOpt (stacOf intro).epsg
    startTime := asset.time_created
    endTime := asset.time_updated }

/-- Kind of exception an external call raises: Earth Engine
`EEException`s are caught by the submitters' handlers, transport
(requests) exceptions are not. -/
inductive ExnKind where
  | ee (msg : Str)
  | transport (msg : Str)
deriving DecidableEq

/-- Remote behaviour seen by one manifest-mode task: what
`ee.data.getInfo` returns or raises, and the status/text of the
`session.post` response (or what it raises). -/
structure ManifestRemote where
  getInfoResult : Except ExnKind Bool
  postResult : Except ExnKind (Nat × Str)

/-- Outcome computation of `register_single_asset_manifest`
(cogee.py:636-653): `Except.error` models an exception escaping the
function (only `EEException` is caught). -/
def runManifest (path : Str) (env : ManifestRemote) : Except Str Str :=
  match env.getInfoResult with
  | .error (.ee e) => .ok (str "Failed to register " ++ path ++ str ": " ++ e)
  | .error (.transport e) => .error e
  | .ok true => .ok (str "Asset " ++ path ++ str " already exists: SKIPPING")
  | .ok false =>
    match env.postResult with
    | .error (.ee e) => .ok (str "Failed to register " ++ path ++ str ": " ++ e)
    | .error (.transport e) => .error e
    | .ok (status, text) =>
      if status = 200 then .ok (str "Registered " ++ path)
      else .ok (str "Failed to register " ++ path ++ str ": " ++ text)

/-- Remote behaviour seen by one legacy-mode task: the `getInfo`
result, and the `ee.data.createAsset` call, whose exceptions are all
caught by the inner `except Exception` handler and whose returned
response may or may not carry an `"id"` field. -/
structure LegacyRemote where
  getInfoResult : Except ExnKind Bool
  createResult : Except Str (Option Str)

/-- Outcome computation of `register_single_asset_legacy`
(cogee.py:682-695): the inner value is `none` when the function falls
off the end and returns Python `None` (createAsset succeeded but its
response carried no `"id"`). -/
def runLegacy (path : Str) (env : LegacyRemote) : Except Str (Option Str) :=
  match env.getInfoResult with
  | .error (.ee _) => .ok (some (str "Failed to register " ++ path))
  | .error (.transport e) => .error e
  | .ok true => .ok (some (str "Asset " ++ path ++ str " already exists: SKIPPING"))
  | .ok false =>
    match env.createResult with
    | .error e => .ok (some (str "Failed to register " ++ path ++ str " with error " ++ e))
    | .ok (some _) => .ok (some (str "Registered " ++ path))
    | .ok none => .ok none

/-- The fan-out of `register` in manifest mode (cogee.py:744-768): one
task per element of the difference set, each looking its asset up via
`get_property(...)[0]` and submitting against the remote environment. -/
def registerBatchManifest (ptif : List TifProps) (ids : List Str) (collection : Str)
    (envOf : Str → ManifestRemote) : List (Except Str Str) :=
  (remainingList ptif ids).map (fun key =>
    runManifest (assetPath collection ((get_property ptif key).headD default).name) (envOf key))

/-- Messages of the tasks that returned (rather than raised). -/
def okMsgs (rs : List (Except Str Str)) : List Str :=
  rs.filterMap (fun r => match r with | .ok s => some s | .error _ => none)

/-- Classification of a task's message as a `Registered` outcome. -/
def isRegisteredMsg (s : Str) : Bool := (str "Registered ").isPrefixOf s

/-- Classification of a task's message as an `AlreadyExists` outcome. -/
def isSkipMsg (s : Str) : Bool := (str "Asset ").isPrefixOf s

/-- Classification of a task's message as a `Failed` outcome. -/
def isFailedMsg (s : Str) : Bool := (str "Failed to register ").isPrefixOf s

/-- A task environment in which no transport exception is raised. -/
def noTransport (env : ManifestRemote) : Prop :=
  (∀ e, env.getInfoResult ≠ .error (.transport e)) ∧
  (∀ e, env.postResult ≠ .error (.transport e))

/-- External effects a submission task can perform.  `initEE` is
`ee.Initialize`, which rebinds the process-wide Earth Engine
credential state. -/
inductive Effect where
  | initEE
  | getInfo (path : Str)
  | sessionPost (path : Str)
  | createAsset (path : Str)
deriving DecidableEq

/-- Effect trace of one manifest-mode task (cogee.py:636-648): an
existence check, then — only for a fresh asset — one `session.post`.
The shared session is only read. -/
def manifestEffects (path : Str) (env : ManifestRemote) : List Effect :=
  match env.getInfoResult with
  | .error _ => [Effect.getInfo path]
  | .ok true => [Effect.getInfo path]
  | .ok false => [Effect.getInfo path, Effect.sessionPost path]

/-- Effect trace of one legacy-mode task (cogee.py:656-695): every
call starts with `ee.Initialize` (cogee.py:658-662), then the
existence check and, for a fresh asset, one `createAsset`. -/
def legacyEffects (path : Str) (env : LegacyRemote) : List Effect :=
  Effect.initEE ::
    (match env.getInfoResult with
    | .error _ => [Effect.getInfo path]
    | .ok true => [Effect.getInfo path]
    | .ok false => [Effect.getInfo path, Effect.createAsset path])

/-- Whether an effect mutates the process-wide authentication state. -/
def mutatesAuth : Effect → Bool
  | .initEE => true
  | _ => false

/-- Worker bound of a Python `ThreadPoolExecutor()` constructed with
no `max_workers` argument: `min(32, os.cpu_count() + 4)`. -/
def defaultExecutorWorkers (cpu : Nat) : Nat := min 32 (cpu + 4)

/-- Worker bound of the registration fan-out (cogee.py:745):
`ThreadPoolExecutor()` with no `max_workers` argument, hence the
library default. -/
def registerPoolBound (cpu : Nat) : Nat := defaultExecutorWorkers cpu

/-- Worker bound of `validate_cog_batch` (cogee.py:459):
`max_workers=10` by default, else the caller's value. -/
def validateBatchWorkers (w : Option Nat) : Nat := w.getD 10

/-- A message is classified as exactly one of the three outcome
variants. -/
def oneOfThree (s : Str) : Prop :=
  (isRegisteredMsg s).toNat + (isSkipMsg s).toNat + (isFailedMsg s).toNat = 1

/- ------------------------------------------------------------------
Helper lemmas
------------------------------------------------------------------ -/

theorem oneOfThree_registered (p : Str) : oneOfThree (str "Registered " ++ p) := by
  simp [oneOfThree, isRegisteredMsg, isSkipMsg, isFailedMsg, str, List.isPrefixOf]

theorem oneOfThree_skip (p : Str) :
    oneOfThree (str "Asset " ++ p ++ str " already exists: SKIPPING") := by
  simp [oneOfThree, isRegisteredMsg, isSkipMsg, isFailedMsg, str, List.isPrefixOf]

theorem oneOfThree_failed (p e : Str) :
    oneOfThree (str "Failed to register " ++ p ++ str ": " ++ e) := by
  simp [oneOfThree, isRegisteredMsg, isSkipMsg, isFailedMsg, str, List.isPrefixOf]

theorem runManifest_ok (path : Str) (env : ManifestRemote) (h : noTransport env) :
    ∃ s, runManifest path env = Except.ok s ∧ oneOfThree s := by
  obtain ⟨h1, h2⟩ := h
  unfold runManifest
  rcases hg : env.getInfoResult with k | b
  · rcases k with e | e
    · exact ⟨_, rfl, oneOfThree_failed path e⟩
    · exact absurd hg (h1 e)
  · cases b
    · rcases hp : env.postResult with k | st
      · rcases k with e | e
        · exact ⟨_, rfl, oneOfThree_failed path e⟩
        · exact absurd hp (h2 e)
      · rcases st with ⟨status, text⟩
        by_cases hs : status = 200
        · exact ⟨_, by simp [hs], oneOfThree_registered path⟩
        · exact ⟨_, by simp [hs], oneOfThree_failed path text⟩
    · exact ⟨_, rfl, oneOfThree_skip path⟩

theorem countP_three_of_oneOf (l : List Str) (h : ∀ s ∈ l, oneOfThree s) :
    l.countP isRegisteredMsg + l.countP isSkipMsg + l.countP isFailedMsg = l.length := by
  induction l with
  | nil => rfl
  | cons a t ih =>
    have ha := h a (List.mem_cons_self a t)
    have ht := ih (fun s hs => h s (List.mem_cons_of_mem a hs))
    simp only [List.countP_cons, List.length_cons]
    unfold oneOfThree at ha
    cases hr : isRegisteredMsg a <;> cases hs : isSkipMsg a <;> cases hf : isFailedMsg a <;>
      simp [hr, hs, hf] at ha ⊢ <;> omega

theorem okMsgs_all_ok {α : Type} (g : α → Except Str Str) (keys : List α)
    (h : ∀ k ∈ keys, ∃ s, g k = Except.ok s ∧ oneOfThree s) :
    (okMsgs (keys.map g)).length = keys.length ∧ ∀ s ∈ okMsgs (keys.map g), oneOfThree s := by
  induction keys with
  | nil => exact ⟨rfl, by simp [okMsgs]⟩
  | cons k t ih =>
    obtain ⟨s, hs, h1⟩ := h k (List.mem_cons_self k t)
    obtain ⟨ihl, ihm⟩ := ih (fun k' hk' => h k' (List.mem_cons_of_mem k hk'))
    have hstep : okMsgs (g k :: t.map g) = s :: okMsgs (t.map g) := by
      simp only [okMsgs, List.filterMap_cons, hs]
    refine ⟨?_, ?_⟩
    · simp [List.map_cons, hstep, ihl]
    · intro s' hs'
      rw [List.map_cons, hstep] at hs'
      rcases List.mem_cons.mp hs' with h' | h'
      · exact h' ▸ h1
      · exact ihm s' h'

theorem remainingList_nodup (ptif : List TifProps) (ids : List Str) :
    (remainingList ptif ids).Nodup :=
  (List.nodup_dedup _).filter _

theorem remainingList_toFinset (ptif : List TifProps) (ids : List Str) :
    (remainingList ptif ids).toFinset = remainingItems ptif ids := by
  ext k
  simp [remainingList, remainingItems, List.mem_filter, Finset.mem_sdiff]

theorem remainingList_length (ptif : List TifProps) (ids : List Str) :
    (remainingList ptif ids).length = (remainingItems ptif ids).card := by
  rw [← remainingList_toFinset, List.toFinset_card_of_nodup (remainingList_nodup ptif ids)]

/- ------------------------------------------------------------------
Claim theorems
------------------------------------------------------------------ -/

/-- C1: the Inventory Differ computes exactly the set difference of
base-name keys: membership in the remaining set is membership among
the source keys minus the catalog keys; diffing a listing against a
catalog carrying the same keys is empty; diffing an empty listing is
empty. -/
theorem inventory_differ_is_set_difference (ptif : List TifProps) (ids : List Str) :
    (∀ k, k ∈ remainingItems ptif ids ↔ k ∈ sourceKeys ptif ∧ k ∉ catalogKeys ids)
    ∧ (catalogKeys ids = sourceKeys ptif → remainingItems ptif ids = ∅)
    ∧ remainingItems [] ids = ∅ := by
  refine ⟨fun k => ?_, fun h => ?_, ?_⟩
  · simp [remainingItems, Finset.mem_sdiff]
  · simp [remainingItems, h]
  · simp [remainingItems, sourceKeys]

/-- Witness for C1 at a concrete listing and catalog. -/
theorem inventory_differ_is_set_difference_witness :
    remainingItems [⟨str "a.tif", str "t", str "t", 1⟩] [str "c/a"] = ∅ :=
  (inventory_differ_is_set_difference [⟨str "a.tif", str "t", str "t", 1⟩] [str "c/a"]).2.1
    (by decide)

/-- C3 counterexample: two distinct source names in one collection
derive the same asset path (the derivation truncates the last path
segment at its first dot, not just the trailing extension), while both
names carry distinct differ keys and hence are both submitted. -/
theorem asset_path_collision_counterexample :
    assetPath (str "coll") (str "a.tif") = assetPath (str "coll") (str "a.v2.tif")
    ∧ str "a.tif" ≠ str "a.v2.tif"
    ∧ gcsKey (str "a.tif") ≠ gcsKey (str "a.v2.tif") := by decide

/-- C3 amended: the derivation `collection ++ "/" ++ base` is injective
only on names with distinct first-dot-truncated base segments. -/
theorem asset_path_injective_on_distinct_basenames (c n1 n2 : Str)
    (h : manifestBaseName n1 ≠ manifestBaseName n2) :
    assetPath c n1 ≠ assetPath c n2 := by
  intro heq
  unfold assetPath at heq
  exact h ((List.append_right_inj (c ++ str "/")).mp heq)

/-- Witness for the amended C3 at concrete names. -/
theorem asset_path_injective_on_distinct_basenames_witness :
    assetPath (str "c") (str "a.tif") ≠ assetPath (str "c") (str "b.tif") :=
  asset_path_injective_on_distinct_basenames (str "c") (str "a.tif") (str "b.tif") (by decide)

/-- C4: when the count of caller-supplied band names equals the
detected band count those names are used in order (tileset id `"0"`,
0-based index); on any mismatch, and when no names are supplied, the
synthesized defaults are used for every band — never a mix. -/
theorem band_names_all_or_nothing (names : List Str) (bc : Nat) :
    (names.length = bc →
      buildBands (some names) bc = names.enum.map (fun p => ⟨p.2, str "0", p.1⟩))
    ∧ (names.length ≠ bc → buildBands (some names) bc = defaultBands bc)
    ∧ buildBands none bc = defaultBands bc := by
  refine ⟨fun h => ?_, fun h => ?_, rfl⟩
  · cases names with
    | nil =>
      have h0 : bc = 0 := by simpa using h.symm
      subst h0
      decide
    | cons a as =>
      show (if (a :: as) ≠ [] ∧ (a :: as).length = bc then
          (a :: as).enum.map (fun p => (⟨p.2, str "0", p.1⟩ : BandDescriptor))
        else defaultBands bc) = (a :: as).enum.map (fun p => ⟨p.2, str "0", p.1⟩)
      rw [if_pos ⟨List.cons_ne_nil a as, h⟩]
  · show (if names ≠ [] ∧ names.length = bc then
        names.enum.map (fun p => (⟨p.2, str "0", p.1⟩ : BandDescriptor))
      else defaultBands bc) = defaultBands bc
    rw [if_neg (fun hc => h hc.2)]

/-- Witness for C4: supplied names of matching count are used in
order; a mismatched single name falls back to the defaults. -/
theorem band_names_all_or_nothing_witness :
    buildBands (some [str "red", str "green"]) 2 =
      [str "red", str "green"].enum.map (fun p => ⟨p.2, str "0", p.1⟩)
    ∧ buildBands (some [str "red"]) 2 = defaultBands 2 :=
  ⟨(band_names_all_or_nothing [str "red", str "green"] 2).1 (by decide),
   (band_names_all_or_nothing [str "red"] 2).2.1 (by decide)⟩

/-- C7 counterexample: on a 4-CPU machine `register`'s worker pool,
built with no `max_workers` argument, is bounded by 8, not 10. -/
theorem register_pool_bound_counterexample :
    registerPoolBound 4 = 8 ∧ registerPoolBound 4 ≠ 10 := by decide

/-- C7 amended: the validation batch pool defaults to 10 and uses the
caller's value, while the registration pool always takes the library
default `min(32, cpu + 4)`, which equals 10 only on 6-CPU machines. -/
theorem worker_pool_bounds :
    validateBatchWorkers none = 10
    ∧ (∀ w, validateBatchWorkers (some w) = w)
    ∧ (∀ cpu, registerPoolBound cpu = defaultExecutorWorkers cpu)
    ∧ (∀ cpu, registerPoolBound cpu = 10 ↔ cpu = 6) := by
  refine ⟨rfl, fun w => rfl, fun cpu => rfl, fun cpu => ?_⟩
  unfold registerPoolBound defaultExecutorWorkers
  omega

/-- C9 counterexample: a legacy-mode submission task begins with
`ee.Initialize`, mutating the process-wide authentication state
mid-batch. -/
theorem legacy_task_mutates_auth_counterexample :
    (legacyEffects (str "c/a") ⟨Except.ok false, Except.ok none⟩).any mutatesAuth = true := by
  rfl

/-- C9 amended: in manifest mode no task effect mutates the
authentication state (tasks only read the shared session), while in
legacy mode every task re-initializes the global credentials. -/
theorem manifest_tasks_read_only_session (path : Str) (env : ManifestRemote) :
    (manifestEffects path env).all (fun e => !mutatesAuth e) = true
    ∧ ∀ (path2 : Str) (env2 : LegacyRemote), Effect.initEE ∈ legacyEffects path2 env2 := by
  constructor
  · unfold manifestEffects
    rcases hg : env.getInfoResult with k | b
    · rfl
    · cases b <;> rfl
  · intro p2 env2
    exact List.mem_cons_self _ _

/-- C2 counterexample: a legacy-mode item whose `createAsset` call
succeeds but whose response carries no `"id"` field yields no outcome
at all — the function falls off the end and returns Python `None`. -/
theorem legacy_task_no_outcome_counterexample :
    runLegacy (str "c/a") ⟨Except.ok false, Except.ok none⟩ = Except.ok none := rfl

/-- C2 amended: in manifest mode, provided no transport exception
escapes a task, every item of the difference set yields exactly one
terminal outcome, and the Registered/AlreadyExists/Failed counts sum
to the size of the difference set. -/
theorem batch_outcome_counts (ptif : List TifProps) (ids : List Str) (collection : Str)
    (envOf : Str → ManifestRemote) (h : ∀ k, noTransport (envOf k)) :
    (okMsgs (registerBatchManifest ptif ids collection envOf)).length
      = (remainingItems ptif ids).card
    ∧ (okMsgs (registerBatchManifest ptif ids collection envOf)).countP isRegisteredMsg
      + (okMsgs (registerBatchManifest ptif ids collection envOf)).countP isSkipMsg
      + (okMsgs (registerBatchManifest ptif ids collection envOf)).countP isFailedMsg
      = (remainingItems ptif ids).card := by
  have hall := okMsgs_all_ok
    (fun key => runManifest
      (assetPath collection ((get_property ptif key).headD default).name) (envOf key))
    (remainingList ptif ids)
    (fun k _ => runManifest_ok _ (envOf k) (h k))
  have hlen : (okMsgs (registerBatchManifest ptif ids collection envOf)).length
      = (remainingItems ptif ids).card := hall.1.trans (remainingList_length ptif ids)
  exact ⟨hlen, (countP_three_of_oneOf _ hall.2).trans hlen⟩

/-- Witness for the amended C2 at a one-item listing with a
transport-free environment. -/
theorem batch_outcome_counts_witness :
    (okMsgs (registerBatchManifest [⟨str "a.tif", str "t", str "t", 1⟩] [] (str "c")
        (fun _ => ⟨Except.ok false, Except.ok (200, str "")⟩))).countP isRegisteredMsg
    + (okMsgs (registerBatchManifest [⟨str "a.tif", str "t", str "t", 1⟩] [] (str "c")
        (fun _ => ⟨Except.ok false, Except.ok (200, str "")⟩))).countP isSkipMsg
    + (okMsgs (registerBatchManifest [⟨str "a.tif", str "t", str "t", 1⟩] [] (str "c")
        (fun _ => ⟨Except.ok false, Except.ok (200, str "")⟩))).countP isFailedMsg
    = (remainingItems [⟨str "a.tif", str "t", str "t", 1⟩] []).card :=
  (batch_outcome_counts [⟨str "a.tif", str "t", str "t", 1⟩] [] (str "c")
    (fun _ => ⟨Except.ok false, Except.ok (200, str "")⟩)
    (fun _ => And.intro (fun _ he => nomatch he) (fun _ he => nomatch he))).2

/-- C5 counterexample: when introspection raises and the caller
supplied exactly one band name, the payload's single band carries the
supplied name, not the default `b1`. -/
theorem introspection_failure_band_name_counterexample :
    (mkManifest (str "bkt") none (str "c") ⟨str "a.tif", str "t1", str "t2", 10⟩ none
        (some [str "red"])).bands = [⟨str "red", str "0", 0⟩]
    ∧ [(⟨str "red", str "0", 0⟩ : BandDescriptor)] ≠ [⟨str "b1", str "0", 0⟩] := by decide

/-- C5 amended: if introspection raises or reports no band count, the
payload is still built with band count 1; its single band is named
`b1` unless the caller supplied exactly one band name, in which case
that name is used. -/
theorem introspection_failure_degrades (bucket : Str) (pre : Option Str) (collection : Str)
    (asset : TifProps) (band_names : Option (List Str)) (intro : Option IntrospectOk)
    (h : intro = none ∨ ∃ r, intro = some r ∧ r.count = none) :
    detectedBandCount intro = 1
    ∧ ((∀ n, band_names ≠ some [n]) →
        (mkManifest bucket pre collection asset intro band_names).bands
          = [⟨str "b1", str "0", 0⟩])
    ∧ (∀ n, band_names = some [n] →
        (mkManifest bucket pre collection asset intro band_names).bands
          = [⟨n, str "0", 0⟩]) := by
  have hbc : detectedBandCount intro = 1 := by
    rcases h with h | ⟨r, hr, hc⟩
    · rw [h]; rfl
    · rw [hr]; simp [detectedBandCount, hc]
  refine ⟨hbc, fun hn => ?_, fun n hn => ?_⟩
  · show buildBands band_names (detectedBandCount intro) = _
    rw [hbc]
    rcases band_names with _ | names
    · decide
    · rcases names with _ | ⟨a, tail⟩
      · decide
      · rcases tail with _ | ⟨b, tail2⟩
        · exact absurd rfl (hn a)
        · show (if (a :: b :: tail2) ≠ [] ∧ (a :: b :: tail2).length = 1 then
              (a :: b :: tail2).enum.map (fun p => (⟨p.2, str "0", p.1⟩ : BandDescriptor))
            else defaultBands 1) = [⟨str "b1", str "0", 0⟩]
          rw [if_neg (fun hc => by simp at hc)]
          decide
  · subst hn
    show buildBands (some [n]) (detectedBandCount intro) = _
    rw [hbc]
    show (if ([n]) ≠ [] ∧ ([n] : List Str).length = 1 then
        ([n] : List Str).enum.map (fun p => (⟨p.2, str "0", p.1⟩ : BandDescriptor))
      else defaultBands 1) = [⟨n, str "0", 0⟩]
    rw [if_pos ⟨List.cons_ne_nil n [], rfl⟩]
    rfl

/-- Witness for the amended C5: introspection raised and no band names
were supplied, so the payload carries one band named `b1`. -/
theorem introspection_failure_degrades_witness :
    detectedBandCount none = 1
    ∧ (mkManifest (str "b") none (str "c") ⟨str "a.tif", str "t", str "t", 1⟩ none
        none).bands = [⟨str "b1", str "0", 0⟩] :=
  ⟨(introspection_failure_degrades (str "b") none (str "c")
      ⟨str "a.tif", str "t", str "t", 1⟩ none none (Or.inl rfl)).1,
   (introspection_failure_degrades (str "b") none (str "c")
      ⟨str "a.tif", str "t", str "t", 1⟩ none none (Or.inl rfl)).2.1
      (fun n hn => nomatch hn)⟩

/-- C6 counterexample: with objects `ba.tif` and `a.tif` listed in
that order, the item with difference key `a` is looked up by
case-insensitive substring match and resolves to the first match
`ba.tif` — another listed object, whose base name is `ba`, not `a` —
so the submitted payload carries that object's size 20, not 10. -/
theorem payload_source_mismatch_counterexample :
    selectAsset [⟨str "ba.tif", str "t1", str "t2", 20⟩, ⟨str "a.tif", str "t3", str "t4", 10⟩]
        (str "a") = some ⟨str "ba.tif", str "t1", str "t2", 20⟩
    ∧ gcsKey (str "ba.tif") ≠ str "a"
    ∧ (mkManifest (str "bkt") none (str "c")
        ((get_property
            [⟨str "ba.tif", str "t1", str "t2", 20⟩, ⟨str "a.tif", str "t3", str "t4", 10⟩]
            (str "a")).headD default)
        none none).file_size_bytes = 20 := by decide

/-- C6 amended: the payload is built from the first listed object
whose name contains the item's key case-insensitively; whenever every
such containing object has that key as its base name, the selected
object's base name equals the key and the payload carries exactly its
metadata (size, timestamps, storage URI, derived path). -/
theorem payload_from_selected_object (ptif : List TifProps) (key : Str) (f : TifProps)
    (hsel : selectAsset ptif key = some f)
    (huniq : ∀ g ∈ ptif, containsLower g.name key = true → gcsKey g.name = key) :
    gcsKey f.name = key
    ∧ ∀ bucket pre collection intro bn,
        (mkManifest bucket pre collection f intro bn).file_size_bytes = f.file_size_bytes
        ∧ (mkManifest bucket pre collection f intro bn).startTime = f.time_created
        ∧ (mkManifest bucket pre collection f intro bn).endTime = f.time_updated
        ∧ (mkManifest bucket pre collection f intro bn).uris = [gcsUri bucket pre f.name]
        ∧ (mkManifest bucket pre collection f intro bn).name = assetPath collection f.name := by
  have hmem : f ∈ get_property ptif key := by
    unfold selectAsset at hsel
    rcases hgp : get_property ptif key with _ | ⟨x, xs⟩
    · rw [hgp] at hsel; exact absurd hsel (by simp)
    · rw [hgp] at hsel
      simp only [List.head?_cons, Option.some.injEq] at hsel
      rw [hsel]
      exact List.mem_cons_self f xs
  have hf := List.mem_filter.mp hmem
  exact ⟨huniq f hf.1 hf.2, fun _ _ _ _ _ => ⟨rfl, rfl, rfl, rfl, rfl⟩⟩

/-- Witness for the amended C6 at a one-object listing. -/
theorem payload_from_selected_object_witness :
    gcsKey (str "x/a.tif") = str "a" :=
  (payload_from_selected_object [⟨str "x/a.tif", str "t", str "t", 1⟩] (str "a")
    ⟨str "x/a.tif", str "t", str "t", 1⟩ (by decide) (by decide)).1

/-- C8 counterexample: a legacy-mode task whose existence check raises
an `EEException` with reason "quota exceeded" returns a Failed outcome
that omits the reason entirely. -/
theorem legacy_failure_reason_omitted_counterexample :
    runLegacy (str "c/a") ⟨Except.error (ExnKind.ee (str "quota exceeded")), Except.ok none⟩
      = Except.ok (some (str "Failed to register " ++ str "c/a"))
    ∧ ¬ (str "quota exceeded" <:+: str "Failed to register " ++ str "c/a") :=
  ⟨rfl, by decide⟩

/-- C8 amended: manifest-mode failures — a catalog `EEException` or a
non-200 response — produce a Failed outcome ending in the remote
reason text verbatim, as does a legacy-mode `createAsset` exception;
only the legacy-mode catalog `EEException` omits it (and transport
exceptions escape the task instead of being folded into Failed). -/
theorem failure_reason_preserved (path : Str) (env : ManifestRemote) (envL : LegacyRemote) :
    (∀ e, env.getInfoResult = Except.error (ExnKind.ee e) →
        runManifest path env = Except.ok (str "Failed to register " ++ path ++ str ": " ++ e)
        ∧ e <:+: str "Failed to register " ++ path ++ str ": " ++ e)
    ∧ (∀ st text, env.getInfoResult = Except.ok false →
        env.postResult = Except.ok (st, text) → st ≠ 200 →
        runManifest path env = Except.ok (str "Failed to register " ++ path ++ str ": " ++ text)
        ∧ text <:+: str "Failed to register " ++ path ++ str ": " ++ text)
    ∧ (∀ e, envL.getInfoResult = Except.ok false → envL.createResult = Except.error e →
        runLegacy path envL
          = Except.ok (some (str "Failed to register " ++ path ++ str " with error " ++ e))
        ∧ e <:+: str "Failed to register " ++ path ++ str " with error " ++ e) := by
  refine ⟨fun e he => ⟨?_, ?_⟩, fun st text hg hp hs => ⟨?_, ?_⟩, fun e hg hc => ⟨?_, ?_⟩⟩
  · unfold runManifest; rw [he]
  · exact (List.suffix_append _ _).isInfix
  · unfold runManifest; rw [hg, hp]; simp [hs]
  · exact (List.suffix_append _ _).isInfix
  · unfold runLegacy; rw [hg, hc]
  · exact (List.suffix_append _ _).isInfix

/-- Witness for the amended C8: a 500 response with body "boom" yields
a Failed outcome carrying "boom" verbatim. -/
theorem failure_reason_preserved_witness :
    runManifest (str "c/a") ⟨Except.ok false, Except.ok (500, str "boom")⟩
      = Except.ok (str "Failed to register " ++ str "c/a" ++ str ": " ++ str "boom")
    ∧ str "boom" <:+: str "Failed to register " ++ str "c/a" ++ str ": " ++ str "boom" :=
  (failure_reason_preserved (str "c/a") ⟨Except.ok false, Except.ok (500, str "boom")⟩
    ⟨Except.ok false, Except.error (str "x")⟩).2.1 500 (str "boom") rfl rfl (by decide)

theorem list_tif_loop_length_le (L : Nat) (l : List Blob) (acc : List TifProps)
    (h : acc.length < L) : (list_tif_loop (some L) l acc).length ≤ L := by
  induction l generalizing acc with
  | nil => exact Nat.le_of_lt h
  | cons b rest ih =>
    have hstep : list_tif_loop (some L) (b :: rest) acc
        = if endsWithTifLower b.name = true then
            (if L ≤ (acc ++ [(⟨b.name, b.time_created, b.updated, b.size⟩ : TifProps)]).length
              then acc ++ [(⟨b.name, b.time_created, b.updated, b.size⟩ : TifProps)]
              else list_tif_loop (some L) rest
                (acc ++ [(⟨b.name, b.time_created, b.updated, b.size⟩ : TifProps)]))
          else list_tif_loop (some L) rest acc := rfl
    rw [hstep]
    by_cases hb : endsWithTifLower b.name = true
    · rw [if_pos hb]
      by_cases hstop : L ≤ (acc ++ [(⟨b.name, b.time_created, b.updated, b.size⟩ : TifProps)]).length
      · rw [if_pos hstop]
        simp only [List.length_append, List.length_cons, List.length_nil]
        omega
      · rw [if_neg hstop]
        apply ih
        simp only [List.length_append, List.length_cons, List.length_nil] at hstop ⊢
        omega
    · rw [if_neg hb]
      exact ih acc h

theorem list_tif_loop_mem (lim : Option Nat) (l : List Blob) (acc : List TifProps)
    (p : TifProps) (hp : p ∈ list_tif_loop lim l acc) :
    p ∈ acc ∨ ∃ b, b ∈ l ∧ endsWithTifLower b.name = true
      ∧ p = ⟨b.name, b.time_created, b.updated, b.size⟩ := by
  rcases lim with _ | L
  · induction l generalizing acc with
    | nil => exact Or.inl hp
    | cons b rest ih =>
      have hstep : list_tif_loop none (b :: rest) acc
          = if endsWithTifLower b.name = true then
              list_tif_loop none rest (acc ++ [(⟨b.name, b.time_created, b.updated, b.size⟩ : TifProps)])
            else list_tif_loop none rest acc := rfl
      rw [hstep] at hp
      by_cases hb : endsWithTifLower b.name = true
      · rw [if_pos hb] at hp
        rcases ih _ hp with hin | ⟨b2, hb2, he2, hpe⟩
        · rcases List.mem_append.mp hin with h1 | h2
          · exact Or.inl h1
          · have hpb : p = ⟨b.name, b.time_created, b.updated, b.size⟩ := by simpa using h2
            exact Or.inr ⟨b, List.mem_cons_self b rest, hb, hpb⟩
        · exact Or.inr ⟨b2, List.mem_cons_of_mem b hb2, he2, hpe⟩
      · rw [if_neg hb] at hp
        rcases ih _ hp with hin | ⟨b2, hb2, he2, hpe⟩
        · exact Or.inl hin
        · exact Or.inr ⟨b2, List.mem_cons_of_mem b hb2, he2, hpe⟩
  · induction l generalizing acc with
    | nil => exact Or.inl hp
    | cons b rest ih =>
      have hstep : list_tif_loop (some L) (b :: rest) acc
          = if endsWithTifLower b.name = true then
              (if L ≤ (acc ++ [(⟨b.name, b.time_created, b.updated, b.size⟩ : TifProps)]).length
                then acc ++ [(⟨b.name, b.time_created, b.updated, b.size⟩ : TifProps)]
                else list_tif_loop (some L) rest
                  (acc ++ [(⟨b.name, b.time_created, b.updated, b.size⟩ : TifProps)]))
            else list_tif_loop (some L) rest acc := rfl
      rw [hstep] at hp
      by_cases hb : endsWithTifLower b.name = true
      · rw [if_pos hb] at hp
        by_cases hstop : L ≤ (acc ++ [(⟨b.name, b.time_created, b.updated, b.size⟩ : TifProps)]).length
        · rw [if_pos hstop] at hp
          rcases List.mem_append.mp hp with h1 | h2
          · exact Or.inl h1
          · have hpb : p = ⟨b.name, b.time_created, b.updated, b.size⟩ := by simpa using h2
            exact Or.inr ⟨b, List.mem_cons_self b rest, hb, hpb⟩
        · rw [if_neg hstop] at hp
          rcases ih _ hp with hin | ⟨b2, hb2, he2, hpe⟩
          · rcases List.mem_append.mp hin with h1 | h2
            · exact Or.inl h1
            · have hpb : p = ⟨b.name, b.time_created, b.updated, b.size⟩ := by simpa using h2
              exact Or.inr ⟨b, List.mem_cons_self b rest, hb, hpb⟩
          · exact Or.inr ⟨b2, List.mem_cons_of_mem b hb2, he2, hpe⟩
      · rw [if_neg hb] at hp
        rcases ih _ hp with hin | ⟨b2, hb2, he2, hpe⟩
        · exact Or.inl hin
        · exact Or.inr ⟨b2, List.mem_cons_of_mem b hb2, he2, hpe⟩

/-- C10: `list_tif` returns only entries whose object name ends in
".tif" case-insensitively; under a limit `L` it returns at most `L`
entries and examines only the first `10 * L` objects of the store's
stream; every returned entry carries the name, both timestamps, and
the size of a listed object. -/
theorem list_tif_bounded_and_faithful (blobs : List Blob) (L : Nat) (lim : Option Nat) :
    (list_tif blobs (some L)).length ≤ L
    ∧ list_tif blobs (some L) = list_tif (blobs.take (10 * L)) (some L)
    ∧ (∀ p ∈ list_tif blobs lim, endsWithTifLower p.name = true)
    ∧ (∀ p ∈ list_tif blobs lim, ∃ b, b ∈ blobs ∧ p.name = b.name
        ∧ p.time_created = b.time_created ∧ p.time_updated = b.updated
        ∧ p.file_size_bytes = b.size) := by
  refine ⟨?_, ?_, ?_, ?_⟩
  · rcases Nat.eq_zero_or_pos L with h0 | hpos
    · subst h0
      show (list_tif_loop (some 0) (blobs.take (10 * 0)) []).length ≤ 0
      rw [Nat.mul_zero, List.take_zero]
      exact Nat.le.refl
    · exact list_tif_loop_length_le L (blobs.take (10 * L)) [] hpos
  · show list_tif_loop (some L) (blobs.take (10 * L)) []
        = list_tif_loop (some L) ((blobs.take (10 * L)).take (10 * L)) []
    rw [List.take_take, Nat.min_self]
  · intro p hp
    rcases lim with _ | L'
    · rcases list_tif_loop_mem none blobs [] p hp with h | ⟨b, _, he, hpe⟩
      · simp at h
      · rw [hpe]
        exact he
    · rcases list_tif_loop_mem (some L') (blobs.take (10 * L')) [] p hp with h | ⟨b, _, he, hpe⟩
      · simp at h
      · rw [hpe]
        exact he
  · intro p hp
    rcases lim with _ | L'
    · rcases list_tif_loop_mem none blobs [] p hp with h | ⟨b, hb, _, hpe⟩
      · simp at h
      · subst hpe
        exact ⟨b, hb, rfl, rfl, rfl, rfl⟩
    · rcases list_tif_loop_mem (some L') (blobs.take (10 * L')) [] p hp
        with h | ⟨b, hb, _, hpe⟩
      · simp at h
      · subst hpe
        exact ⟨b, List.take_subset _ _ hb, rfl, rfl, rfl, rfl⟩

/-- Witness for C10 at a concrete two-object store. -/
theorem list_tif_bounded_and_faithful_witness :
    (list_tif [⟨str "x/a.tif", str "t1", str "t2", 5⟩, ⟨str "b.txt", str "t3", str "t4", 6⟩]
        (some 1)).length ≤ 1
    ∧ endsWithTifLower (str "x/a.tif") = true :=
  ⟨(list_tif_bounded_and_faithful
      [⟨str "x/a.tif", str "t1", str "t2", 5⟩, ⟨str "b.txt", str "t3", str "t4", 6⟩] 1 none).1,
   (list_tif_bounded_and_faithful
      [⟨str "x/a.tif", str "t1", str "t2", 5⟩, ⟨str "b.txt", str "t3", str "t4", 6⟩] 1 none).2.2.1
      ⟨str "x/a.tif", str "t1", str "t2", 5⟩ (by decide)⟩
